import Mathlib

/-!
Verification development for the br backup coordinator.

The definitions below are a shallow embedding of the Go source:
  * `pkg/raw/push.go` — the phase-1 push-down supervisor (`pushBackup`), the
    response classifier (`OnBackupResponse`), the per-store streaming loop
    (`SendBackup`), timestamp acquisition (`GetTS`), leader lookup
    (`findRegionLeader`), storage initialisation (`SetStorage`), schema
    enumeration (`BuildBackupRangeAndSchema` / `appendRanges`), and the phase-2
    response forwarding of `handleFineGrained` / `fineGrainedBackup`.
  * `pkg/storage/hdfs.go` — `HdfsStorage.WriteFile`.

External collaborators (gRPC streams, the PD client, the lock resolver, the
HDFS client, `utils.MessageIsRetryableStorageError`, `utils.CheckGCSafePoint`)
are modelled as explicit oracle parameters: a function argument supplies the
outcome of each external call, and the embedded control flow over those
outcomes mirrors the Go code line by line.
-/

namespace BrBackup

/-- One output file descriptor carried by a backup response (kvproto `backup.File`). -/
structure FileMeta where
  name : String
deriving DecidableEq, Repr

/-- Presence flags of the eight region sub-errors tested by `OnBackupResponse`
(each Go field is a pointer; `true` models a non-nil pointer). -/
structure RegionErrorPb where
  epochNotMatch : Bool
  notLeader : Bool
  regionNotFound : Bool
  serverIsBusy : Bool
  staleCommand : Bool
  storeNotMatch : Bool
  readIndexNotReady : Bool
  proposalInMergingMode : Bool
deriving DecidableEq, Repr

/-- A KV lock record inside a KV error (kvproto `kvrpcpb.LockInfo`); only its
identity matters to the classifier. -/
structure LockInfo where
  key : String
deriving DecidableEq, Repr

/-- The oneof `Detail` of a kvproto `backup.Error`.  The Go type switch has a
`default` arm; a `Detail` that is nil or of an unmodelled variant is embedded
as `Option.none` at the use site. -/
inductive ErrorDetail where
  | kvError (locked : Option LockInfo)
  | regionError (re : RegionErrorPb)
  | clusterIdError
deriving DecidableEq, Repr

/-- A kvproto `backup.Error`: a oneof detail (none = the `default` arm of the
Go type switch) plus the free-form message used by the storage-retry check. -/
structure ErrorPb where
  detail : Option ErrorDetail
  msg : String
deriving DecidableEq, Repr

/-- A kvproto `backup.BackupResponse`. -/
structure BackupResponse where
  startKey : String
  endKey : String
  error : Option ErrorPb
  files : List FileMeta
deriving DecidableEq, Repr

/-- The typed errors produced by the embedded fragment of `OnBackupResponse`
(`berrors.ErrKVUnknown`, `berrors.ErrKVClusterIDMismatch`, and a trace of a
lock-resolver failure). -/
inductive BError where
  | kvUnknown
  | clusterIDMismatch
  | resolveLockFailed
deriving DecidableEq, Repr

/-- The triple returned by `OnBackupResponse`:
`(effective response, backoff milliseconds, error)`. -/
structure ClassifierOut where
  resp : Option BackupResponse
  backoffMs : Int
  err : Option BError
deriving DecidableEq, Repr

/-- The disjunction of the eight benign region sub-errors, exactly the
condition negated at push.go:836-843. -/
def regionBenign (re : RegionErrorPb) : Bool :=
  re.epochNotMatch || re.notLeader || re.regionNotFound || re.serverIsBusy ||
  re.staleCommand || re.storeNotMatch || re.readIndexNotReady ||
  re.proposalInMergingMode

/-- Embedding of `OnBackupResponse` (push.go:802-867).  The lock resolver is an
external call whose outcome for this invocation is supplied as `resolveLocks`
(`Except.ok ms` = resolved with `msBeforeExpired = ms`); the external
`utils.MessageIsRetryableStorageError` is supplied as `retryableStorageMsg`. -/
def onBackupResponse
    (resolveLocks : Except Unit Int)
    (retryableStorageMsg : String → Bool)
    (resp : BackupResponse) : ClassifierOut :=
  match resp.error with
  | none => ⟨some resp, 0, none⟩
  | some errPb =>
    match errPb.detail with
    | some (.kvError locked) =>
      match locked with
      | some _ =>
        match resolveLocks with
        | .error _ => ⟨none, 0, some .resolveLockFailed⟩
        | .ok msBeforeExpired =>
          if msBeforeExpired > 0 then ⟨none, msBeforeExpired, none⟩
          else ⟨none, 0, none⟩
      | none => ⟨none, 0, some .kvUnknown⟩
    | some (.regionError re) =>
      if regionBenign re then ⟨none, 1000, none⟩
      else ⟨none, 0, some .kvUnknown⟩
    | some .clusterIdError => ⟨none, 0, some .clusterIDMismatch⟩
    | none =>
      if retryableStorageMsg errPb.msg then ⟨none, 3000, none⟩
      else ⟨none, 0, some .kvUnknown⟩

/-- Embedding of the response callback of `handleFineGrained`
(push.go:917-934) applied to the finite sequence of responses received on one
stream: each response is classified with `onBackupResponse`; a classifier error
terminates the stream; an effective response (`resp` field `some`) is pushed to
`respCh`.  `resolve k` supplies the lock-resolver outcome of the `k`-th
classification.  Returns the list of responses pushed to `respCh` and the
terminating error, if any. -/
def handleResponses (resolve : Nat → Except Unit Int)
    (retryableStorageMsg : String → Bool) :
    List BackupResponse → Nat → List BackupResponse × Option BError
  | [], _ => ([], none)
  | r :: rs, k =>
    let out := onBackupResponse (resolve k) retryableStorageMsg r
    match out.err with
    | some e => ([], some e)
    | none =>
      let rest := handleResponses resolve retryableStorageMsg rs (k + 1)
      match out.resp with
      | some r0 => (r0 :: rest.1, rest.2)
      | none => rest

/-- The guard of the `log.Panic` branch of the `fineGrainedBackup` supervisor
(push.go:771-774): the supervisor panics iff some response received on
`respCh` carries a non-nil error. -/
def supervisorPanicked (rs : List BackupResponse) : Bool :=
  rs.any (fun r => r.error.isSome)

/-! Phase-1 push-down supervisor (`pushBackup`, the `raw` package,
push.go:37-120).  The supervisor mutates the result tree through two entry
points, recorded here as a trace of operations. -/

/-- One mutation of the phase-1 result tree: `Result.putOk` or
`Result.putError`. -/
inductive TreeOp where
  | putOk (startKey endKey : String) (files : List FileMeta)
  | putError (startKey endKey : String) (err : ErrorPb)
deriving DecidableEq, Repr

/-- Embedding of the `resp := <-push.respCh` arm of the `pushBackup` select
loop (push.go:86-115): the tree operations executed for one response, and
whether the supervisor returns a fatal error for it.  Note the Go control
flow: for a KV or region error the `switch` arm runs `putError` and then falls
through to the unconditional `putOk` on line 114. -/
def processResponse (resp : BackupResponse) : List TreeOp × Bool :=
  match resp.error with
  | none => ([.putOk resp.startKey resp.endKey resp.files], false)
  | some errPb =>
    match errPb.detail with
    | some (.kvError _) =>
      ([.putError resp.startKey resp.endKey errPb,
        .putOk resp.startKey resp.endKey resp.files], false)
    | some (.regionError _) =>
      ([.putError resp.startKey resp.endKey errPb,
        .putOk resp.startKey resp.endKey resp.files], false)
    | some .clusterIdError => ([], true)
    | none => ([], true)

/-- One event taken by the `pushBackup` select loop, in the order the `select`
happened to serve the three channels. -/
inductive PushEvent where
  | resp (r : BackupResponse)
  | workerErr
  | done
deriving DecidableEq, Repr

/-- Terminal outcome of the `pushBackup` select loop. -/
inductive PushOutcome where
  | completed
  | workerError
  | fatal (e : ErrorPb)
deriving DecidableEq, Repr

/-- Embedding of the `pushBackup` supervisor loop (push.go:82-119) over a
serialized sequence of channel events: the tree operations executed, and the
outcome (`none` = the loop is still blocked waiting for events). -/
def pushSupervisor : List PushEvent → List TreeOp × Option PushOutcome
  | [] => ([], none)
  | e :: es =>
    match e with
    | .done => ([], some .completed)
    | .workerErr => ([], some .workerError)
    | .resp r =>
      let pr := processResponse r
      if pr.2 then (pr.1, some (.fatal (r.error.getD ⟨none, ""⟩)))
      else
        let rest := pushSupervisor es
        (pr.1 ++ rest.1, rest.2)

/-! Per-store streaming loop `SendBackup` (push.go:960-1064) with
`backupRetryTimes = 5` (push.go:194) and
`isRetryableError err = (status.Code err == codes.Unavailable)`
(push.go:1067-1069). -/

/-- The gRPC status code of a transport error, as far as `isRetryableError`
distinguishes it. -/
inductive GrpcCode where
  | unavailable
  | otherCode
deriving DecidableEq, Repr

/-- Terminal event of one server stream: clean end (`io.EOF`) or a `Recv`
transport error. -/
inductive StreamEnd where
  | eof
  | recvErr (c : GrpcCode)
deriving DecidableEq, Repr

/-- Script of one opened stream: the responses delivered by `Recv`, then the
terminal event. -/
structure StreamScript where
  resps : List BackupResponse
  fin : StreamEnd
deriving Repr

/-- Outcome of one `client.Backup` call: a transport error, or an opened
stream. -/
inductive OpenOutcome where
  | openErr (c : GrpcCode)
  | stream (sc : StreamScript)
deriving Repr

/-- Result of `SendBackup`, naming each `return` site of the Go function. -/
inductive SBResult where
  | ok
  | resetFailed
  | failedToConnect
  | respErr (e : BError)
deriving DecidableEq, Repr

/-- Observable effects of one `SendBackup` call: its result, how many times
`client.Backup` opened a stream, how many 3-second sleeps ran, and how many
times `resetFn` was invoked. -/
structure SBStats where
  result : SBResult
  opens : Nat
  sleeps : Nat
  resets : Nat
deriving DecidableEq, Repr

/-- Number of retries of the `backupLoop` of `SendBackup`
(`backupRetryTimes`, push.go:194). -/
def backupRetryTimes : Nat := 5

/-- Inner `Recv` loop of `SendBackup` restricted to the response deliveries:
feeds each response to `respFn`, stopping at the first `respFn` error. -/
def runStream (respFn : BackupResponse → Option BError) :
    List BackupResponse → Option BError
  | [] => none
  | r :: rs =>
    match respFn r with
    | some e => some e
    | none => runStream respFn rs

/-- Embedding of the `backupLoop` of `SendBackup` (push.go:980-1063).
`att o` is the outcome of the `(o+1)`-th `client.Backup` call; `resetOk k`
tells whether the `(k+1)`-th `resetFn` call succeeds.  `retriesLeft` is the
number of loop iterations still allowed; the `0` base case is the fall-through
`return nil` on push.go:1063. -/
def sendBackupLoop (att : Nat → OpenOutcome) (resetOk : Nat → Bool)
    (respFn : BackupResponse → Option BError) :
    Nat → Nat → Nat → Nat → SBStats
  | 0, o, s, rs => ⟨.ok, o, s, rs⟩
  | n + 1, o, s, rs =>
    match att o with
    | .openErr c =>
      if c = .unavailable then
        if resetOk rs then sendBackupLoop att resetOk respFn n (o + 1) (s + 1) (rs + 1)
        else ⟨.resetFailed, o + 1, s + 1, rs + 1⟩
      else ⟨.failedToConnect, o + 1, s, rs⟩
    | .stream sc =>
      match runStream respFn sc.resps with
      | some e => ⟨.respErr e, o + 1, s, rs⟩
      | none =>
        match sc.fin with
        | .eof => ⟨.ok, o + 1, s, rs⟩
        | .recvErr c =>
          if c = .unavailable then
            if resetOk rs then sendBackupLoop att resetOk respFn n (o + 1) (s + 1) (rs + 1)
            else ⟨.resetFailed, o + 1, s + 1, rs + 1⟩
          else ⟨.failedToConnect, o + 1, s, rs⟩

/-- Embedding of `SendBackup` (push.go:962-1064): run the retry loop with
`backupRetryTimes` iterations and zeroed counters. -/
def sendBackup (att : Nat → OpenOutcome) (resetOk : Nat → Bool)
    (respFn : BackupResponse → Option BError) : SBStats :=
  sendBackupLoop att resetOk respFn backupRetryTimes 0 0 0

/-! Timestamp acquisition `GetTS` (push.go:224-260).  TSO timestamps are
composed with an 18-bit logical suffix, `oracle.ComposeTS p l =
uint64 (p <<< 18 + l)`; Go's `uint64` conversion of an `int64` is the
two's-complement reinterpretation, i.e. reduction modulo `2 ^ 64`. -/

/-- `oracle.ComposeTS` on `int64` physical/logical parts, converted to
`uint64` (values as `Nat` below `2 ^ 64`). -/
def composeTS (p l : Int) : Nat :=
  ((p * 2 ^ 18 + l) % (2 ^ 64 : Int)).toNat

/-- `oracle.ExtractPhysical`: the millisecond clock of a composed timestamp. -/
def extractPhysical (ts : Nat) : Int :=
  ((ts / 2 ^ 18 : Nat) : Int)

/-- Typed errors of `GetTS`. -/
inductive TSErr where
  | pdErr
  | invalidArgNegTimeago
  | invalidArgOverflow
  | gcSafePointErr
deriving DecidableEq, Repr

/-- Embedding of `Client.GetTS` (push.go:224-260).  External calls are
oracles: `pd` is the PD `GetTS` outcome (physical millisecond clock and
logical counter, both `int64`), and `gcOk ts` tells whether
`utils.CheckGCSafePoint` accepts `ts`.  `durationNs` is the `timeago`
argument in nanoseconds (`time.Duration`); Go's integer division truncates
toward zero, hence `Int.tdiv`. -/
def getTSRaw (pd : Except Unit (Int × Int)) (durationNs : Int)
    (tsArg : Nat) : Except TSErr Nat :=
  if tsArg > 0 then .ok tsArg
  else
    match pd with
    | .error _ => .error .pdErr
    | .ok (p, l) =>
      let backupTS := composeTS p l
      if durationNs < 0 then .error .invalidArgNegTimeago
      else if durationNs > 0 then
        let agoPhysical :=
          Int.tdiv (extractPhysical backupTS * 1000000 - durationNs) 1000000
        let agoTS := composeTS agoPhysical l
        if backupTS < agoTS then .error .invalidArgOverflow
        else .ok agoTS
      else .ok backupTS

/-- The closing GC safe-point validation of `GetTS` (push.go:253-259),
applied to the computed timestamp. -/
def getTS (pd : Except Unit (Int × Int)) (gcOk : Nat → Bool)
    (durationNs : Int) (tsArg : Nat) : Except TSErr Nat :=
  match getTSRaw pd durationNs tsArg with
  | .error e => .error e
  | .ok ts => if gcOk ts then .ok ts else .error .gcSafePointErr

/-! Leader lookup `findRegionLeader` (push.go:650-673). -/

/-- A store peer (kvproto `metapb.Peer`), identified by its store id. -/
structure Peer where
  storeId : Nat
deriving DecidableEq, Repr

/-- The part of a PD region lookup result that `findRegionLeader` inspects. -/
structure RegionInfo where
  leader : Option Peer
deriving DecidableEq, Repr

/-- Observable outcome of `findRegionLeader`: the returned leader
(`none` models the `ErrBackupNoLeader` error return), the number of
`GetRegion` lookups performed, and the sleeps (in ms) executed between
attempts, in order. -/
structure FRLOut where
  result : Option Peer
  lookups : Nat
  sleepsMs : List Nat
deriving DecidableEq, Repr

/-- Embedding of the retry loop of `findRegionLeader` (push.go:654-670).
`lookup i` is the outcome of the `GetRegion` call of attempt `i`
(`none` = the call failed or returned a nil region); `fuel` is the number of
attempts left and `i` the current loop index. -/
def frlGo (lookup : Nat → Option RegionInfo) : Nat → Nat → FRLOut
  | 0, _ => ⟨none, 0, []⟩
  | fuel + 1, i =>
    match lookup i with
    | some region =>
      match region.leader with
      | some ldr => ⟨some ldr, 1, []⟩
      | none =>
        let rest := frlGo lookup fuel (i + 1)
        ⟨rest.result, rest.lookups + 1, 100 * i :: rest.sleepsMs⟩
    | none =>
      let rest := frlGo lookup fuel (i + 1)
      ⟨rest.result, rest.lookups + 1, 100 * i :: rest.sleepsMs⟩

/-- Embedding of `findRegionLeader` (push.go:650-673): five attempts starting
at loop index `0`. -/
def findRegionLeader (lookup : Nat → Option RegionInfo) : FRLOut :=
  frlGo lookup 5 0

/-- The region of attempt `i` has a discoverable leader. -/
def leaderAt (lookup : Nat → Option RegionInfo) (i : Nat) : Option Peer :=
  (lookup i).bind (fun r => r.leader)

/-! Storage initialisation `Client.SetStorage` (push.go:288-315). -/

/-- Typed errors of `SetStorage`, naming each `return` site. -/
inductive SetStorageErr where
  | newStorageErr
  | checkMetaErr
  | invalidArgMetaExists
  | checkLockErr
  | invalidArgLockExists
deriving DecidableEq, Repr

/-- The two `SetStorage` errors annotated with `berrors.ErrInvalidArgument`. -/
def SetStorageErr.isInvalidArgument : SetStorageErr → Bool
  | .invalidArgMetaExists => true
  | .invalidArgLockExists => true
  | _ => false

/-- Outcomes of the external storage calls made by `SetStorage`:
whether `storage.New` succeeds, and the results of the two
`FileExists` probes (`Except.ok b` = the probe answered `b`). -/
structure StorageProbe where
  newOk : Bool
  metaExists : Except Unit Bool
  lockExists : Except Unit Bool

/-- Embedding of `Client.SetStorage` (push.go:288-315): returns the value of
`bc.backend` after the call (its prior value is `backend0`) together with the
returned error.  `backendArg` is the `backend` argument being recorded. -/
def setStorage (probe : StorageProbe) (backendArg : String)
    (backend0 : Option String) : Option String × Option SetStorageErr :=
  if !probe.newOk then (backend0, some .newStorageErr)
  else
    match probe.metaExists with
    | .error _ => (backend0, some .checkMetaErr)
    | .ok true => (backend0, some .invalidArgMetaExists)
    | .ok false =>
      match probe.lockExists with
      | .error _ => (backend0, some .checkLockErr)
      | .ok true => (backend0, some .invalidArgLockExists)
      | .ok false => (some backendArg, none)

/-! Schema enumeration: `BuildBackupRangeAndSchema` (push.go:372-477),
`BuildTableRanges` (push.go:324-340) and `appendRanges` (push.go:342-367).
Only the parts the index-pruning claim depends on are kept concrete; auto-id
rebasing mutates counters, not the index list, and is omitted. -/

/-- The schema state of an index (`model.SchemaState`); only publicness is
discriminated by the code under scrutiny. -/
inductive IndexState where
  | public
  | deleteOnly
  | writeOnly
  | writeReorganization
deriving DecidableEq, Repr

/-- An index descriptor (`model.IndexInfo`): identity and schema state. -/
structure IndexInfo where
  id : Nat
  state : IndexState
deriving DecidableEq, Repr

/-- A table descriptor (`model.TableInfo`): identity, name, index list, and
the physical ids of its partitions (`none` = unpartitioned). -/
structure TableInfo where
  id : Nat
  name : String
  indices : List IndexInfo
  partitionIDs : Option (List Nat)
deriving DecidableEq, Repr

/-- A database descriptor (`model.DBInfo`) restricted to name and tables. -/
structure DBInfo where
  name : String
  tables : List TableInfo
deriving DecidableEq, Repr

/-- A raw key range produced by schema enumeration, identified by the table
(or partition) id it covers and, for an index range, the index id. -/
inductive SchemaRange where
  | rowRange (physicalID : Nat)
  | indexRange (physicalID idxID : Nat)
deriving DecidableEq, Repr

/-- The in-place compaction loop of push.go:448-455 that keeps only indices
in public state. -/
def removeNonPublicIndices : List IndexInfo → List IndexInfo
  | [] => []
  | idx :: rest =>
    if idx.state = .public then idx :: removeNonPublicIndices rest
    else removeNonPublicIndices rest

/-- The index loop of `appendRanges` (push.go:355-365): one range per index,
skipping indices whose state is not public. -/
def appendIndexRanges (physicalID : Nat) : List IndexInfo → List SchemaRange
  | [] => []
  | idx :: rest =>
    if idx.state = .public then
      .indexRange physicalID idx.id :: appendIndexRanges physicalID rest
    else appendIndexRanges physicalID rest

/-- Embedding of `appendRanges` (push.go:342-367): the row-data range of the
physical table followed by one range per public index. -/
def appendRanges (tbl : TableInfo) (physicalID : Nat) : List SchemaRange :=
  .rowRange physicalID :: appendIndexRanges physicalID tbl.indices

/-- Embedding of `BuildTableRanges` (push.go:324-340): per-partition ranges,
or the table's own ranges when unpartitioned. -/
def buildTableRanges (tbl : TableInfo) : List SchemaRange :=
  match tbl.partitionIDs with
  | none => appendRanges tbl tbl.id
  | some defs => defs.flatMap (fun pid => appendRanges tbl pid)

/-- The per-table body of `BuildBackupRangeAndSchema` (push.go:408-468)
restricted to its index handling: prune non-public indices in place, add the
pruned descriptor to the schemas, then build its key ranges. -/
def processTable (tbl : TableInfo) : TableInfo × List SchemaRange :=
  let pruned := { tbl with indices := removeNonPublicIndices tbl.indices }
  (pruned, buildTableRanges pruned)

/-- Embedding of the enumeration loops of `BuildBackupRangeAndSchema`
(push.go:387-470): databases failing the schema filter or without tables are
skipped, tables failing the table filter are skipped, every matched table is
processed with `processTable`.  Returns the accumulated ranges and schemas. -/
def buildEntries (matchSchema : String → Bool)
    (matchTable : String → String → Bool) (dbs : List DBInfo) :
    List (TableInfo × List SchemaRange) :=
  (dbs.filter (fun db => matchSchema db.name && !db.tables.isEmpty)).flatMap
    (fun db =>
      (db.tables.filter (fun t => matchTable db.name t.name)).map processTable)

/-- The pair returned by `BuildBackupRangeAndSchema`: the accumulated ranges
and the accumulated schemas of the processed tables. -/
def buildBackupRangeAndSchema (matchSchema : String → Bool)
    (matchTable : String → String → Bool) (dbs : List DBInfo) :
    List SchemaRange × List TableInfo :=
  ((buildEntries matchSchema matchTable dbs).flatMap (fun e => e.2),
   (buildEntries matchSchema matchTable dbs).map (fun e => e.1))

/-- Every table descriptor in the list carries only public indices. -/
def allIndicesPublic (ts : List TableInfo) : Bool :=
  ts.all (fun t => t.indices.all (fun i => i.state == .public))

/-! `HdfsStorage.WriteFile` (hdfs.go:42-60), over a file-system state mapping
paths to contents.  The HDFS client calls (`Stat`, `Remove`, `Create`,
`Write`) are assumed to succeed; `filepath.Join` is modelled by string
concatenation with a separator. -/

/-- State of the HDFS namespace visible to `HdfsStorage`: an association of
paths to file contents. -/
structure HdfsState where
  files : List (String × String)
deriving DecidableEq, Repr

/-- `HdfsStorage.FileExists` (hdfs.go:68-78) under a succeeding `Stat`. -/
def fileExists (st : HdfsState) (path : String) : Bool :=
  (st.files.lookup path).isSome

/-- Embedding of `HdfsStorage.WriteFile` (hdfs.go:42-60): join the path; if
the file exists, `Remove` it and return its error (nil here) immediately;
otherwise `Create` the file and `Write` the data.  Returns the new state and
the returned error (`none` = nil). -/
def writeFile (st : HdfsState) (base name data : String) :
    HdfsState × Option Unit :=
  let path := base ++ "/" ++ name
  if fileExists st path then
    (⟨st.files.filter (fun kv => kv.1 ≠ path)⟩, none)
  else
    (⟨(path, data) :: st.files⟩, none)

/-! Helper lemmas shared by several claims. -/

/-- An effective response of the classifier is the input response itself and
carries no error. -/
theorem onBackupResponse_resp_some (resolveLocks : Except Unit Int)
    (retryableStorageMsg : String → Bool) (r r0 : BackupResponse)
    (h : (onBackupResponse resolveLocks retryableStorageMsg r).resp = some r0) :
    r0 = r ∧ r0.error = none := by
  cases he : r.error with
  | none =>
    simp [onBackupResponse, he] at h
    subst h
    exact ⟨rfl, he⟩
  | some errPb =>
    cases hd : errPb.detail with
    | none =>
      by_cases hr : retryableStorageMsg errPb.msg <;>
        simp [onBackupResponse, he, hd, hr] at h
    | some d =>
      cases d with
      | kvError locked =>
        cases locked with
        | none => simp [onBackupResponse, he, hd] at h
        | some l =>
          cases resolveLocks with
          | error e => simp [onBackupResponse, he, hd] at h
          | ok ms =>
            by_cases hm : ms > 0 <;> simp [onBackupResponse, he, hd, hm] at h
      | regionError re =>
        by_cases hb : regionBenign re <;>
          simp [onBackupResponse, he, hd, hb] at h
      | clusterIdError => simp [onBackupResponse, he, hd] at h

/-! Claim theorems. -/

/-- C1: `OnBackupResponse` returns exactly the classification table of the
spec: `(resp, 0, nil)` for an error-free response; for a KV lock error it
invokes the lock resolver and returns `(nil, msBeforeExpired, nil)` when
`msBeforeExpired > 0` and `(nil, 0, nil)` otherwise; `(nil, 1000, nil)` for a
benign region error; `KVUnknown` for any other KV or region error;
`ClusterIDMismatch` for a cluster-id error; and `(nil, 3000, nil)` when the
otherwise-unclassified error message matches the retryable-storage pattern. -/
theorem C1_onBackupResponse_classification
    (resolveLocks : Except Unit Int) (retryableStorageMsg : String → Bool)
    (resp : BackupResponse) :
    (resp.error = none →
      onBackupResponse resolveLocks retryableStorageMsg resp =
        ⟨some resp, 0, none⟩) ∧
    (∀ errPb lock ms, resp.error = some errPb →
      errPb.detail = some (.kvError (some lock)) →
      resolveLocks = .ok ms →
      onBackupResponse resolveLocks retryableStorageMsg resp =
        if ms > 0 then ⟨none, ms, none⟩ else ⟨none, 0, none⟩) ∧
    (∀ errPb re, resp.error = some errPb →
      errPb.detail = some (.regionError re) → regionBenign re = true →
      onBackupResponse resolveLocks retryableStorageMsg resp =
        ⟨none, 1000, none⟩) ∧
    (∀ errPb, resp.error = some errPb →
      errPb.detail = some (.kvError none) →
      onBackupResponse resolveLocks retryableStorageMsg resp =
        ⟨none, 0, some .kvUnknown⟩) ∧
    (∀ errPb re, resp.error = some errPb →
      errPb.detail = some (.regionError re) → regionBenign re = false →
      onBackupResponse resolveLocks retryableStorageMsg resp =
        ⟨none, 0, some .kvUnknown⟩) ∧
    (∀ errPb, resp.error = some errPb →
      errPb.detail = some .clusterIdError →
      onBackupResponse resolveLocks retryableStorageMsg resp =
        ⟨none, 0, some .clusterIDMismatch⟩) ∧
    (∀ errPb, resp.error = some errPb → errPb.detail = none →
      retryableStorageMsg errPb.msg = true →
      onBackupResponse resolveLocks retryableStorageMsg resp =
        ⟨none, 3000, none⟩) := by
  refine ⟨?_, ?_, ?_, ?_, ?_, ?_, ?_⟩
  · intro h
    simp [onBackupResponse, h]
  · intro errPb lock ms he hd hr
    simp [onBackupResponse, he, hd, hr]
  · intro errPb re he hd hb
    simp [onBackupResponse, he, hd, hb]
  · intro errPb he hd
    simp [onBackupResponse, he, hd]
  · intro errPb re he hd hb
    simp [onBackupResponse, he, hd, hb]
  · intro errPb he hd
    simp [onBackupResponse, he, hd]
  · intro errPb he hd hr
    simp [onBackupResponse, he, hd, hr]

/-- Witness for C1: a KV lock error with a resolver answer of 500 ms yields
`(nil, 500, nil)`. -/
theorem C1_onBackupResponse_classification_witness :
    onBackupResponse (.ok 500) (fun _ => false)
      ⟨"a", "m", some ⟨some (.kvError (some ⟨"k"⟩)), ""⟩, []⟩ =
      ⟨none, 500, none⟩ := by
  have h :=
    (C1_onBackupResponse_classification (.ok 500) (fun _ => false)
      ⟨"a", "m", some ⟨some (.kvError (some ⟨"k"⟩)), ""⟩, []⟩).2.1
      ⟨some (.kvError (some ⟨"k"⟩)), ""⟩ ⟨"k"⟩ 500 rfl rfl rfl
  simpa using h

/-- C2 (code evaluation at the failing input): in the phase-1 supervisor, a
response carrying a KV error makes the code insert the error marker and then
fall through to `putOk`, inserting the response's files as a successful
sub-range even though the response carries an error. -/
theorem C2_pushBackup_putOk_on_error :
    processResponse
      ⟨"a", "m", some ⟨some (.kvError none), "io error"⟩, [⟨"f1.sst"⟩]⟩ =
      ([.putError "a" "m" ⟨some (.kvError none), "io error"⟩,
        .putOk "a" "m" [⟨"f1.sst"⟩]], false) := rfl

/-- C3: a response carrying a cluster-id error aborts the backup: the phase-1
supervisor returns a fatal error at once — the result is independent of every
later event and no tree operation runs for the response — and the response
classifier returns `ClusterIDMismatch`. -/
theorem C3_clusterID_fatal (es : List PushEvent) (r : BackupResponse)
    (errPb : ErrorPb) (he : r.error = some errPb)
    (hd : errPb.detail = some .clusterIdError)
    (resolveLocks : Except Unit Int) (retryableStorageMsg : String → Bool) :
    pushSupervisor (.resp r :: es) = ([], some (.fatal errPb)) ∧
    (onBackupResponse resolveLocks retryableStorageMsg r).err =
      some .clusterIDMismatch := by
  constructor
  · simp [pushSupervisor, processResponse, he, hd]
  · simp [onBackupResponse, he, hd]

/-- Witness for C3: a concrete cluster-id error response aborts the
supervisor even with a pending successful response behind it. -/
theorem C3_clusterID_fatal_witness :
    pushSupervisor
      [.resp ⟨"a", "m", some ⟨some .clusterIdError, "mismatch"⟩, []⟩,
       .resp ⟨"m", "z", none, [⟨"f2.sst"⟩]⟩] =
      ([], some (.fatal ⟨some .clusterIdError, "mismatch"⟩)) ∧
    (onBackupResponse (.ok 0) (fun _ => false)
      ⟨"a", "m", some ⟨some .clusterIdError, "mismatch"⟩, []⟩).err =
      some .clusterIDMismatch := by
  have h := C3_clusterID_fatal
    [.resp ⟨"m", "z", none, [⟨"f2.sst"⟩]⟩]
    ⟨"a", "m", some ⟨some .clusterIdError, "mismatch"⟩, []⟩
    ⟨some .clusterIdError, "mismatch"⟩ rfl rfl (.ok 0) (fun _ => false)
  exact h

/-- C9: every response forwarded to the `fineGrainedBackup` supervisor over
`respCh` carries no error, so the supervisor's panic branch on a non-nil
response error is unreachable: `handleFineGrained` forwards only effective
responses of `OnBackupResponse`, which are error-free. -/
theorem C9_supervisor_panic_unreachable (resolve : Nat → Except Unit Int)
    (retryableStorageMsg : String → Bool) (resps : List BackupResponse)
    (k : Nat) :
    supervisorPanicked
      (handleResponses resolve retryableStorageMsg resps k).1 = false := by
  induction resps generalizing k with
  | nil => simp [handleResponses, supervisorPanicked]
  | cons r rs ih =>
    unfold handleResponses
    cases herr : (onBackupResponse (resolve k) retryableStorageMsg r).err with
    | some e => simp [herr, supervisorPanicked]
    | none =>
      cases hresp : (onBackupResponse (resolve k) retryableStorageMsg r).resp with
      | none =>
        simp only [herr, hresp]
        exact ih (k + 1)
      | some r0 =>
        have h0 := onBackupResponse_resp_some (resolve k) retryableStorageMsg
          r r0 hresp
        have ih1 := ih (k + 1)
        simp only [herr, hresp]
        simp only [supervisorPanicked, List.any_cons] at ih1 ⊢
        rw [h0.2]
        simpa using ih1

/-- Each iteration of the `SendBackup` retry loop opens at most one stream. -/
theorem sendBackupLoop_opens_le (att : Nat → OpenOutcome)
    (resetOk : Nat → Bool) (respFn : BackupResponse → Option BError) :
    ∀ n o s rs, (sendBackupLoop att resetOk respFn n o s rs).opens ≤ o + n := by
  intro n
  induction n with
  | zero => intro o s rs; simp [sendBackupLoop]
  | succ m ih =>
    intro o s rs
    unfold sendBackupLoop
    cases h : att o with
    | openErr c =>
      simp only [h]
      by_cases hc : c = .unavailable
      · by_cases hr : resetOk rs = true
        · simp only [hc, if_true, hr, reduceIte]
          exact (ih (o + 1) (s + 1) (rs + 1)).trans (by omega)
        · simp only [hc, if_true, hr, reduceIte]
          show o + 1 ≤ o + (m + 1)
          omega
      · simp only [hc, reduceIte]
        show o + 1 ≤ o + (m + 1)
        omega
    | stream sc =>
      simp only [h]
      cases hrs : runStream respFn sc.resps with
      | some e =>
        simp only [hrs]
        show o + 1 ≤ o + (m + 1)
        omega
      | none =>
        simp only [hrs]
        cases hf : sc.fin with
        | eof =>
          simp only [hf]
          show o + 1 ≤ o + (m + 1)
          omega
        | recvErr c =>
          simp only [hf]
          by_cases hc : c = .unavailable
          · by_cases hr : resetOk rs = true
            · simp only [hc, if_true, hr, reduceIte]
              exact (ih (o + 1) (s + 1) (rs + 1)).trans (by omega)
            · simp only [hc, if_true, hr, reduceIte]
              show o + 1 ≤ o + (m + 1)
              omega
          · simp only [hc, reduceIte]
            show o + 1 ≤ o + (m + 1)
            omega

/-- When the first `n` stream opens all fail with `Unavailable` and resets
succeed, the loop with `n` iterations left falls out of the loop and returns
nil, having slept and reset once per failure. -/
theorem sendBackupLoop_all_unavailable (att : Nat → OpenOutcome)
    (resetOk : Nat → Bool) (respFn : BackupResponse → Option BError)
    (hreset : ∀ k, resetOk k = true) :
    ∀ n o s rs, (∀ j, j < n → att (o + j) = .openErr .unavailable) →
      sendBackupLoop att resetOk respFn n o s rs =
        ⟨.ok, o + n, s + n, rs + n⟩ := by
  intro n
  induction n with
  | zero => intro o s rs _; simp [sendBackupLoop]
  | succ m ih =>
    intro o s rs hall
    have h0 : att o = .openErr .unavailable := by
      simpa using hall 0 (Nat.succ_pos m)
    have hall1 : ∀ j, j < m → att (o + 1 + j) = .openErr .unavailable := by
      intro j hj
      have h2 := hall (j + 1) (Nat.succ_lt_succ hj)
      have h3 : o + (j + 1) = o + 1 + j := by omega
      rw [h3] at h2
      exact h2
    unfold sendBackupLoop
    simp only [h0, hreset, reduceIte]
    rw [ih (o + 1) (s + 1) (rs + 1) hall1]
    simp only [SBStats.mk.injEq]
    refine ⟨trivial, by omega, by omega, by omega⟩

/-- When the first `m` opens fail with `Unavailable`, resets succeed, and the
next open fails with a non-retryable transport code, the loop returns
`FailedToConnect`. -/
theorem sendBackupLoop_other_code (att : Nat → OpenOutcome)
    (resetOk : Nat → Bool) (respFn : BackupResponse → Option BError)
    (hreset : ∀ k, resetOk k = true) :
    ∀ m n o s rs, (∀ j, j < m → att (o + j) = .openErr .unavailable) →
      att (o + m) = .openErr .otherCode → m < n →
      sendBackupLoop att resetOk respFn n o s rs =
        ⟨.failedToConnect, o + m + 1, s + m, rs + m⟩ := by
  intro m
  induction m with
  | zero =>
    intro n o s rs _ hm hn
    cases n with
    | zero => exact absurd hn (Nat.lt_irrefl 0)
    | succ n1 =>
      simp only [Nat.add_zero] at hm
      unfold sendBackupLoop
      simp [hm]
  | succ m1 ih =>
    intro n o s rs hall hm hn
    cases n with
    | zero => exact absurd hn (Nat.not_lt_zero _)
    | succ n1 =>
      have h0 : att o = .openErr .unavailable := by
        simpa using hall 0 (Nat.succ_pos m1)
      have hall1 : ∀ j, j < m1 → att (o + 1 + j) = .openErr .unavailable := by
        intro j hj
        have h2 := hall (j + 1) (Nat.succ_lt_succ hj)
        have h3 : o + (j + 1) = o + 1 + j := by omega
        rw [h3] at h2
        exact h2
      have hm1 : att (o + 1 + m1) = .openErr .otherCode := by
        have h3 : o + 1 + m1 = o + (m1 + 1) := by omega
        rw [h3]
        exact hm
      unfold sendBackupLoop
      simp only [h0, hreset, reduceIte]
      rw [ih n1 (o + 1) (s + 1) (rs + 1) hall1 hm1 (Nat.lt_of_succ_lt_succ hn)]
      simp only [SBStats.mk.injEq]
      refine ⟨trivial, by omega, by omega, by omega⟩

/-- C4 (counterexample to the claim as stated): when every one of the five
stream opens fails with `Unavailable` and every reset succeeds, `SendBackup`
returns nil — a success — not a `FailedToConnect` error. -/
theorem C4_sendBackup_counterexample :
    (sendBackup (fun _ => .openErr .unavailable) (fun _ => true)
      (fun _ => none)).result = .ok ∧
    (sendBackup (fun _ => .openErr .unavailable) (fun _ => true)
      (fun _ => none)).result ≠ .failedToConnect := by
  constructor
  · rfl
  · intro h
    simp [sendBackup, sendBackupLoop, backupRetryTimes] at h

/-- C4 (amended): for every call to `SendBackup` the backup stream is opened
at most 5 times; after `m` consecutive `Unavailable` open failures there have
been `m` three-second sleeps and `m` client resets, and a transport error with
any other code then makes it return `FailedToConnect`; but when `Unavailable`
failures persist through all 5 attempts, `SendBackup` returns nil (success)
after 5 sleeps and 5 resets, leaving the absence of progress to the caller's
debounce, rather than returning `FailedToConnect`. -/
theorem C4_sendBackup_amended :
    (∀ (att : Nat → OpenOutcome) (resetOk : Nat → Bool)
       (respFn : BackupResponse → Option BError),
       (sendBackup att resetOk respFn).opens ≤ backupRetryTimes) ∧
    (∀ (att : Nat → OpenOutcome) (resetOk : Nat → Bool)
       (respFn : BackupResponse → Option BError) (m : Nat),
       (∀ k, resetOk k = true) →
       (∀ j, j < m → att j = .openErr .unavailable) →
       att m = .openErr .otherCode → m < backupRetryTimes →
       sendBackup att resetOk respFn = ⟨.failedToConnect, m + 1, m, m⟩) ∧
    (∀ (att : Nat → OpenOutcome) (resetOk : Nat → Bool)
       (respFn : BackupResponse → Option BError),
       (∀ k, resetOk k = true) →
       (∀ j, j < backupRetryTimes → att j = .openErr .unavailable) →
       sendBackup att resetOk respFn =
         ⟨.ok, backupRetryTimes, backupRetryTimes, backupRetryTimes⟩) := by
  refine ⟨?_, ?_, ?_⟩
  · intro att resetOk respFn
    simpa using sendBackupLoop_opens_le att resetOk respFn backupRetryTimes 0 0 0
  · intro att resetOk respFn m hreset hall hm hlt
    have h := sendBackupLoop_other_code att resetOk respFn hreset m
      backupRetryTimes 0 0 0 (by simpa using hall) (by simpa using hm) hlt
    simpa [sendBackup] using h
  · intro att resetOk respFn hreset hall
    have h := sendBackupLoop_all_unavailable att resetOk respFn hreset
      backupRetryTimes 0 0 0 (by simpa using hall)
    simpa [sendBackup] using h

/-- Witness for C4 (amended): two `Unavailable` failures followed by a
non-retryable transport error end in `FailedToConnect` after two sleeps and
two resets. -/
theorem C4_sendBackup_amended_witness :
    sendBackup
      (fun o => if o < 2 then .openErr .unavailable else .openErr .otherCode)
      (fun _ => true) (fun _ => none) = ⟨.failedToConnect, 3, 2, 2⟩ := by
  have h := C4_sendBackup_amended.2.1
    (fun o => if o < 2 then .openErr .unavailable else .openErr .otherCode)
    (fun _ => true) (fun _ => none) 2
    (fun _ => rfl)
    (by intro j hj; simp [hj])
    (by simp)
    (by simp [backupRetryTimes])
  exact h

/-- C5: `GetTS` with `ts = 0` and a successful PD timestamp read: a negative
`timeago` fails with `InvalidArgument`; a positive `timeago` yields the
timestamp recomposed with the physical portion reduced by `timeago`, failing
with `InvalidArgument` when the recomposed timestamp would exceed the
original; `timeago = 0` yields the composed timestamp unchanged (subject to
the GC check); and every non-failing result has passed the GC safe-point
check. -/
theorem C5_getTS_semantics (gcOk : Nat → Bool) (p l d : Int) :
    (d < 0 → getTS (.ok (p, l)) gcOk d 0 = .error .invalidArgNegTimeago) ∧
    (getTS (.ok (p, l)) gcOk 0 0 =
      if gcOk (composeTS p l) then .ok (composeTS p l)
      else .error .gcSafePointErr) ∧
    (d > 0 →
      getTS (.ok (p, l)) gcOk d 0 =
        (if composeTS p l <
            composeTS
              (Int.tdiv (extractPhysical (composeTS p l) * 1000000 - d)
                1000000) l then
          .error .invalidArgOverflow
        else if gcOk
            (composeTS
              (Int.tdiv (extractPhysical (composeTS p l) * 1000000 - d)
                1000000) l) then
          .ok (composeTS
            (Int.tdiv (extractPhysical (composeTS p l) * 1000000 - d)
              1000000) l)
        else .error .gcSafePointErr)) ∧
    (∀ (pd : Except Unit (Int × Int)) (tsArg ts : Nat),
      getTS pd gcOk d tsArg = .ok ts → gcOk ts = true) := by
  refine ⟨?_, ?_, ?_, ?_⟩
  · intro h
    simp [getTS, getTSRaw, h]
  · by_cases hg : gcOk (composeTS p l) <;> simp [getTS, getTSRaw, hg]
  · intro h
    have h0 : ¬ d < 0 := by omega
    by_cases hov : composeTS p l <
        composeTS
          (Int.tdiv (extractPhysical (composeTS p l) * 1000000 - d) 1000000) l
    · simp [getTS, getTSRaw, h, h0, hov]
    · by_cases hg : gcOk
          (composeTS
            (Int.tdiv (extractPhysical (composeTS p l) * 1000000 - d)
              1000000) l) <;>
        simp [getTS, getTSRaw, h, h0, hov, hg]
  · intro pd tsArg ts hok
    unfold getTS at hok
    cases hr : getTSRaw pd d tsArg with
    | error e => rw [hr] at hok; simp at hok
    | ok ts0 =>
      rw [hr] at hok
      by_cases hg : gcOk ts0
      · simp [hg] at hok
        rw [← hok]
        exact hg
      · simp [hg] at hok

/-- Witness for C5: with PD physical 2000 ms, logical 7 and `timeago` 1 ms,
the result is the recomposed, reduced timestamp. -/
theorem C5_getTS_semantics_witness :
    getTS (.ok (2000, 7)) (fun _ => true) 1000000 0 =
      .ok (composeTS 1999 7) := by
  have h := (C5_getTS_semantics (fun _ => true) 2000 7 1000000).2.2.1
    (by norm_num)
  rw [h]
  rfl

/-- Each attempt of `findRegionLeader` performs at most one lookup. -/
theorem frlGo_lookups_le (lookup : Nat → Option RegionInfo) :
    ∀ fuel i, (frlGo lookup fuel i).lookups ≤ fuel := by
  intro fuel
  induction fuel with
  | zero => intro i; simp [frlGo]
  | succ m ih =>
    intro i
    unfold frlGo
    cases h : lookup i with
    | none =>
      simp only [h]
      exact Nat.succ_le_succ (ih (i + 1))
    | some region =>
      cases hl : region.leader with
      | some ldr => simp [hl]
      | none =>
        simp only [hl]
        exact Nat.succ_le_succ (ih (i + 1))

/-- Shifting the linear-backoff sleep list by one attempt. -/
theorem sleeps_shift (i n : Nat) :
    100 * i :: (List.range n).map (fun j => 100 * (i + 1 + j)) =
      (List.range (n + 1)).map (fun j => 100 * (i + j)) := by
  rw [List.range_succ_eq_map, List.map_cons, List.map_map]
  have hf : (fun j => 100 * (i + 1 + j)) =
      ((fun j => 100 * (i + j)) ∘ Nat.succ) := by
    funext j
    simp only [Function.comp_apply]
    omega
  rw [hf]
  simp

/-- When no attempt in the remaining fuel finds a leader, `frlGo` exhausts
its attempts, returns the `NoLeader` error, and sleeps `100·i` ms after the
attempt with loop index `i`. -/
theorem frlGo_all_fail (lookup : Nat → Option RegionInfo) :
    ∀ fuel i, (∀ j, j < fuel → leaderAt lookup (i + j) = none) →
      frlGo lookup fuel i =
        ⟨none, fuel, (List.range fuel).map (fun j => 100 * (i + j))⟩ := by
  intro fuel
  induction fuel with
  | zero => intro i _; simp [frlGo]
  | succ m ih =>
    intro i hall
    have h0 : leaderAt lookup i = none := by
      simpa using hall 0 (Nat.succ_pos m)
    have hall1 : ∀ j, j < m → leaderAt lookup (i + 1 + j) = none := by
      intro j hj
      have h2 := hall (j + 1) (Nat.succ_lt_succ hj)
      have h3 : i + (j + 1) = i + 1 + j := by omega
      rw [h3] at h2
      exact h2
    unfold frlGo
    cases h : lookup i with
    | none =>
      simp only [h]
      rw [ih (i + 1) hall1]
      simp only [FRLOut.mk.injEq]
      exact ⟨trivial, trivial, sleeps_shift i m⟩
    | some region =>
      have hl : region.leader = none := by
        simpa [leaderAt, h] using h0
      simp only [h, hl]
      rw [ih (i + 1) hall1]
      simp only [FRLOut.mk.injEq]
      exact ⟨trivial, trivial, sleeps_shift i m⟩

/-- When the `NoLeader` error comes back, none of the attempted lookups had a
leader. -/
theorem frlGo_result_none (lookup : Nat → Option RegionInfo) :
    ∀ fuel i, (frlGo lookup fuel i).result = none →
      ∀ j, j < fuel → leaderAt lookup (i + j) = none := by
  intro fuel
  induction fuel with
  | zero => intro i _ j hj; exact absurd hj (Nat.not_lt_zero j)
  | succ m ih =>
    intro i hres j hj
    cases h : lookup i with
    | none =>
      have hres1 : (frlGo lookup m (i + 1)).result = none := by
        unfold frlGo at hres
        simpa [h] using hres
      cases j with
      | zero => simp [leaderAt, h]
      | succ j1 =>
        have h4 := ih (i + 1) hres1 j1 (Nat.lt_of_succ_lt_succ hj)
        have h3 : i + (j1 + 1) = i + 1 + j1 := by omega
        rw [h3]
        exact h4
    | some region =>
      cases hl : region.leader with
      | some ldr =>
        unfold frlGo at hres
        simp [h, hl] at hres
      | none =>
        have hres1 : (frlGo lookup m (i + 1)).result = none := by
          unfold frlGo at hres
          simpa [h, hl] using hres
        cases j with
        | zero => simp [leaderAt, h, hl]
        | succ j1 =>
          have h4 := ih (i + 1) hres1 j1 (Nat.lt_of_succ_lt_succ hj)
          have h3 : i + (j1 + 1) = i + 1 + j1 := by omega
          rw [h3]
          exact h4

/-- The first attempt whose region has a leader returns that leader, having
performed one lookup per preceding failure plus its own and slept `100·i` ms
after each failed attempt. -/
theorem frlGo_first (lookup : Nat → Option RegionInfo) :
    ∀ fuel i n p, n < fuel →
      (∀ j, j < n → leaderAt lookup (i + j) = none) →
      leaderAt lookup (i + n) = some p →
      frlGo lookup fuel i =
        ⟨some p, n + 1, (List.range n).map (fun j => 100 * (i + j))⟩ := by
  intro fuel
  induction fuel with
  | zero => intro i n p hn; exact absurd hn (Nat.not_lt_zero n)
  | succ m ih =>
    intro i n p hn hall hp
    cases n with
    | zero =>
      simp only [Nat.add_zero] at hp
      simp only [leaderAt] at hp
      obtain ⟨region, hr, hl⟩ := Option.bind_eq_some.mp hp
      unfold frlGo
      simp [hr, hl]
    | succ n1 =>
      have h0 : leaderAt lookup i = none := by
        simpa using hall 0 (Nat.succ_pos n1)
      have hall1 : ∀ j, j < n1 → leaderAt lookup (i + 1 + j) = none := by
        intro j hj
        have h2 := hall (j + 1) (Nat.succ_lt_succ hj)
        have h3 : i + (j + 1) = i + 1 + j := by omega
        rw [h3] at h2
        exact h2
      have hp1 : leaderAt lookup (i + 1 + n1) = some p := by
        have h3 : i + 1 + n1 = i + (n1 + 1) := by omega
        rw [h3]
        exact hp
      have hn1 : n1 < m := Nat.lt_of_succ_lt_succ hn
      unfold frlGo
      cases h : lookup i with
      | none =>
        simp only [h]
        rw [ih (i + 1) n1 p hn1 hall1 hp1]
        simp only [FRLOut.mk.injEq]
        exact ⟨trivial, trivial, sleeps_shift i n1⟩
      | some region =>
        have hl : region.leader = none := by
          simpa [leaderAt, h] using h0
        simp only [h, hl]
        rw [ih (i + 1) n1 p hn1 hall1 hp1]
        simp only [FRLOut.mk.injEq]
        exact ⟨trivial, trivial, sleeps_shift i n1⟩

/-- C6: `findRegionLeader` performs at most 5 lookups, sleeps `100·i` ms
after the failed attempt with loop index `i`, returns the `NoLeader` error if
and only if none of the 5 attempts yields a region with a leader (then with
sleeps 0,100,200,300,400 ms), and otherwise returns the first leader found. -/
theorem C6_findRegionLeader_retry (lookup : Nat → Option RegionInfo) :
    ((findRegionLeader lookup).lookups ≤ 5) ∧
    ((findRegionLeader lookup).result = none ↔
      ∀ j, j < 5 → leaderAt lookup j = none) ∧
    ((∀ j, j < 5 → leaderAt lookup j = none) →
      findRegionLeader lookup = ⟨none, 5, [0, 100, 200, 300, 400]⟩) ∧
    (∀ n p, n < 5 → (∀ j, j < n → leaderAt lookup j = none) →
      leaderAt lookup n = some p →
      findRegionLeader lookup =
        ⟨some p, n + 1, (List.range n).map (fun j => 100 * j)⟩) := by
  have hall5 : (∀ j, j < 5 → leaderAt lookup j = none) →
      findRegionLeader lookup = ⟨none, 5, [0, 100, 200, 300, 400]⟩ := by
    intro hall
    have h2 := frlGo_all_fail lookup 5 0
      (by intro j hj; simpa using hall j hj)
    unfold findRegionLeader
    rw [h2]
    decide
  refine ⟨?_, ⟨?_, ?_⟩, hall5, ?_⟩
  · exact frlGo_lookups_le lookup 5 0
  · intro h j hj
    simpa using frlGo_result_none lookup 5 0 h j hj
  · intro hall
    rw [hall5 hall]
  · intro n p hn hall hp
    have h2 := frlGo_first lookup 5 0 n p hn
      (by intro j hj; simpa using hall j hj) (by simpa using hp)
    unfold findRegionLeader
    rw [h2]
    have hfun : (fun j => 100 * (0 + j)) = (fun j : Nat => 100 * j) := by
      funext j
      simp
    rw [hfun]

/-- Witness for C6: two leaderless attempts followed by a leader on attempt 2
yield that leader after 3 lookups and sleeps of 0 and 100 ms. -/
theorem C6_findRegionLeader_retry_witness :
    findRegionLeader (fun i => if i < 2 then none else some ⟨some ⟨42⟩⟩) =
      ⟨some ⟨42⟩, 3, [0, 100]⟩ := by
  have h := (C6_findRegionLeader_retry
      (fun i => if i < 2 then none else some ⟨some ⟨42⟩⟩)).2.2.2 2 ⟨42⟩
    (by omega)
    (by
      intro j hj
      have h2 : j = 0 ∨ j = 1 := by omega
      rcases h2 with rfl | rfl <;> rfl)
    (by rfl)
  rw [h]
  decide

/-- C7: `SetStorage` fails with an `InvalidArgument` error whenever the
metadata file or the lock file already exists in the target storage, in that
case leaving `bc.backend` unset, and records the backend and returns nil when
neither exists. -/
theorem C7_setStorage_guard (probe : StorageProbe) (backendArg : String)
    (backend0 : Option String) :
    (probe.newOk = true → probe.metaExists = .ok true →
      setStorage probe backendArg backend0 =
        (backend0, some .invalidArgMetaExists) ∧
      SetStorageErr.invalidArgMetaExists.isInvalidArgument = true) ∧
    (probe.newOk = true → probe.metaExists = .ok false →
      probe.lockExists = .ok true →
      setStorage probe backendArg backend0 =
        (backend0, some .invalidArgLockExists) ∧
      SetStorageErr.invalidArgLockExists.isInvalidArgument = true) ∧
    (probe.newOk = true → probe.metaExists = .ok false →
      probe.lockExists = .ok false →
      setStorage probe backendArg backend0 = (some backendArg, none)) := by
  refine ⟨?_, ?_, ?_⟩
  · intro h1 h2
    exact ⟨by simp [setStorage, h1, h2], rfl⟩
  · intro h1 h2 h3
    exact ⟨by simp [setStorage, h1, h2, h3], rfl⟩
  · intro h1 h2 h3
    simp [setStorage, h1, h2, h3]

/-- Witness for C7: an existing lock file forbids the backup directory and
leaves the backend unset. -/
theorem C7_setStorage_guard_witness :
    setStorage ⟨true, .ok false, .ok true⟩ "s3" none =
      (none, some .invalidArgLockExists) := by
  have h := (C7_setStorage_guard ⟨true, .ok false, .ok true⟩ "s3" none).2.1
    rfl rfl rfl
  exact h.1

/-- The pruning loop keeps only public indices. -/
theorem removeNonPublicIndices_public (l : List IndexInfo) :
    (removeNonPublicIndices l).all (fun i => i.state == .public) = true := by
  induction l with
  | nil => rfl
  | cons idx rest ih =>
    unfold removeNonPublicIndices
    by_cases h : idx.state = .public
    · simp [h, ih]
    · simp [h, ih]

/-- Every entry produced by the enumeration is a `processTable` image. -/
theorem buildEntries_mem (matchSchema : String → Bool)
    (matchTable : String → String → Bool) (dbs : List DBInfo)
    (e : TableInfo × List SchemaRange) (he : e ∈ buildEntries matchSchema matchTable dbs) :
    ∃ t, e = processTable t := by
  simp only [buildEntries, List.mem_flatMap, List.mem_map, List.mem_filter]
    at he
  obtain ⟨db, hdb, t, ht, he2⟩ := he
  exact ⟨t, he2.symm⟩

/-- Pairs whose second component is determined by the first can be flattened
through the map of first components. -/
theorem entries_ranges_eq (entries : List (TableInfo × List SchemaRange))
    (h : ∀ e ∈ entries, e.2 = buildTableRanges e.1) :
    entries.flatMap (fun e => e.2) =
      (entries.map (fun e => e.1)).flatMap buildTableRanges := by
  induction entries with
  | nil => rfl
  | cons e rest ih =>
    simp only [List.flatMap_cons, List.map_cons]
    rw [h e (List.mem_cons_self e rest),
      ih (fun x hx => h x (List.mem_cons_of_mem e hx))]

/-- C8: every table descriptor yielded by `BuildBackupRangeAndSchema` carries
only indexes in public state, and the returned key ranges are exactly the
ranges built from those pruned descriptors — the pruning happens before the
descriptor is added to the schemas and before its key ranges are built. -/
theorem C8_schemas_public_indices (matchSchema : String → Bool)
    (matchTable : String → String → Bool) (dbs : List DBInfo) :
    allIndicesPublic (buildBackupRangeAndSchema matchSchema matchTable dbs).2 =
      true ∧
    (buildBackupRangeAndSchema matchSchema matchTable dbs).1 =
      (buildBackupRangeAndSchema matchSchema matchTable dbs).2.flatMap
        buildTableRanges := by
  constructor
  · simp only [buildBackupRangeAndSchema, allIndicesPublic, List.all_eq_true]
    intro t ht
    simp only [List.mem_map] at ht
    obtain ⟨e, he, rfl⟩ := ht
    obtain ⟨t0, rfl⟩ := buildEntries_mem matchSchema matchTable dbs e he
    simpa [processTable] using removeNonPublicIndices_public t0.indices
  · simp only [buildBackupRangeAndSchema]
    apply entries_ranges_eq
    intro e he
    obtain ⟨t0, rfl⟩ := buildEntries_mem matchSchema matchTable dbs e he
    rfl

/-- A lookup on a list filtered to exclude a key finds nothing for it. -/
theorem lookup_filter_ne (l : List (String × String)) (p : String) :
    (l.filter (fun kv => kv.1 ≠ p)).lookup p = none := by
  induction l with
  | nil => rfl
  | cons kv rest ih =>
    obtain ⟨k, v⟩ := kv
    by_cases h : k = p
    · have hp : (decide (¬(k, v).1 = p)) = false := by simp [h]
      simp only [List.filter_cons, Ne, hp, Bool.false_eq_true, if_false]
      exact ih
    · have hp : (decide (¬(k, v).1 = p)) = true := by simp [h]
      have hb : (p == k) = false := by
        refine beq_eq_false_iff_ne.mpr ?_
        exact fun he => h he.symm
      simp only [List.filter_cons, Ne, hp, if_true, List.lookup, hb]
      exact ih

/-- C10: `HdfsStorage.WriteFile` on an already-existing file removes the file
and returns nil immediately without writing the data — afterwards the file no
longer exists and the new content is not stored; only when the file did not
exist is it created with the data written. -/
theorem C10_writeFile_existing_removed (st : HdfsState)
    (base name data : String) :
    (fileExists st (base ++ "/" ++ name) = true →
      writeFile st base name data =
        (⟨st.files.filter (fun kv => kv.1 ≠ base ++ "/" ++ name)⟩, none) ∧
      (writeFile st base name data).1.files.lookup (base ++ "/" ++ name) =
        none) ∧
    (fileExists st (base ++ "/" ++ name) = false →
      (writeFile st base name data).1.files.lookup (base ++ "/" ++ name) =
        some data ∧
      (writeFile st base name data).2 = none) := by
  constructor
  · intro h
    refine ⟨by simp [writeFile, h], ?_⟩
    simp only [writeFile, h, if_true]
    exact lookup_filter_ne st.files (base ++ "/" ++ name)
  · intro h
    constructor
    · simp [writeFile, h, List.lookup]
    · simp [writeFile, h]

/-- Witness for C10: writing `"new"` over an existing file leaves the path
absent and the new content unstored. -/
theorem C10_writeFile_existing_removed_witness :
    writeFile ⟨[("b/f", "old")]⟩ "b" "f" "new" = (⟨[]⟩, none) ∧
    (writeFile ⟨[("b/f", "old")]⟩ "b" "f" "new").1.files.lookup "b/f" =
      none := by
  have h := (C10_writeFile_existing_removed ⟨[("b/f", "old")]⟩ "b" "f" "new").1
    (by decide)
  refine ⟨?_, ?_⟩
  · rw [h.1]
    decide
  · have h2 := h.2
    simpa using h2

end BrBackup
